import Mathlib

/-!
# Verification of the delivery-app auth/session lifecycle

A shallow embedding of the authentication controllers of the delivery
backend (`src/controllers/auth.controller.ts`, `src/utils/auth.utils.ts`,
`src/models/User.model.ts`, `src/controllers/courier.controller.ts`),
together with proofs of the spec's claims about them.

Modelling conventions:
* Timestamps are `Nat` milliseconds (`Date.now()`).
* The password hasher is an abstract parameter `hash : String → String`;
  `bcrypt.compare c h` is modelled as `h == hash c`.
* The JWT signer is an abstract parameter `sign : Nat → String`.
* Randomly generated refresh-token values are passed in as `fresh`
  parameters (the code draws them from `crypto.randomBytes`).
* Request-body fields that the code tests with a JS falsiness check
  (`if (!x)`) are modelled as `Option String`; the falsiness check is
  `x = none ∨ x = some ""`, matching JS where both `undefined` and the
  empty string are falsy.
* The Mongo collection is a `List User`; `findOne` is `List.find?`
  (first match), and persisting a document replaces the entry with the
  same `_id` (or appends a new one).
* The Mongoose pre-save hook of `User.model.ts` is modelled by carrying
  an `isModified("password")` flag on the document: `save` hashes the
  password only when the flag is set, and clears it; schema `enum`
  validation of the role runs on every save.
-/

namespace DeliveryAuth

/-- An entry of `user.refreshTokens` (`IRefreshToken` in `User.model.ts`). -/
structure RToken where
  token : String
  expiresAt : Nat
  createdAt : Nat
deriving DecidableEq

/-- A user document (`IUser`).  `passwordModified` models Mongoose's
`isModified("password")` dirty flag consulted by the pre-save hook. -/
structure User where
  id : Nat
  email : String
  password : String
  passwordModified : Bool
  name : String
  phone : String
  role : String
  refreshTokens : List RToken
deriving DecidableEq

/-- The public projection sent by `register`/`login`
(`{_id, name, role, email}`). -/
structure UserPublic where
  id : Nat
  name : String
  role : String
  email : String
deriving DecidableEq

/-- The projection returned by `getUserInfoById`
(`findById(userId).select("-password")`): the full document minus the
password field. -/
structure UserInfo where
  id : Nat
  email : String
  name : String
  phone : String
  role : String
  refreshTokens : List RToken
deriving DecidableEq

/-- The JSON responses the auth controllers can produce. -/
inductive Resp where
  | error (status : Nat) (message : String)
  | loginOk (token refreshTok : String) (user : UserPublic)
  | refreshOk (token refreshTok : String) (message : String)
  | emptyOk (status : Nat)
  | profileOk (user : UserInfo)
deriving DecidableEq

/-- Schema `enum` on the `role` path of `UserSchema`. -/
def roleValid (r : String) : Bool :=
  r == "client" || r == "store" || r == "courier" || r == "admin"

/-- Schema validation run by Mongoose on every `save`. -/
def validateUser (u : User) : Bool :=
  roleValid u.role

/-- `user.save()`: validate, then run the pre-save hook of
`User.model.ts` (hash the password iff it was modified, clearing the
dirty flag).  `none` models a `ValidationError` thrown by `save`. -/
def saveUser (hash : String → String) (u : User) : Option User :=
  if validateUser u then
    some (if u.passwordModified then
            { u with password := hash u.password, passwordModified := false }
          else u)
  else
    none

/-- Persist a saved document into the collection: replace the document
with the same `_id`, or insert it if new. -/
def dbSave (db : List User) (u : User) : List User :=
  if db.any (fun v => v.id == u.id) then
    db.map (fun v => if v.id == u.id then u else v)
  else
    db ++ [u]

/-- `role: role || "client"` — JS `||` takes the default when `role` is
falsy (absent or the empty string). -/
def resolveRole (role : Option String) : String :=
  match role with
  | none => "client"
  | some r => if r == "" then "client" else r

/-- JS falsiness of an optional request-body string (`if (!x)`). -/
def strFalsy (x : Option String) : Bool :=
  x.getD "" == ""

/-- The entry `generateRefreshToken` pushes:
`{token, expiresAt: now + 7d, createdAt: now}`. -/
def newToken (fresh : String) (now : Nat) : RToken :=
  { token := fresh, expiresAt := now + 7 * 24 * 60 * 60 * 1000, createdAt := now }

/-- `generateRefreshToken` of `auth.utils.ts`: push
`{token, expiresAt: now + 7d, createdAt: now}`, `shift()` when the list
grows past 5, then `user.save()`.  Returns the saved user and the token
value. -/
def generateRefreshToken (hash : String → String) (now : Nat) (fresh : String)
    (u : User) : Option (User × String) :=
  let tokens := u.refreshTokens ++ [newToken fresh now]
  let tokens := if tokens.length > 5 then tokens.drop 1 else tokens
  match saveUser hash { u with refreshTokens := tokens } with
  | some u₁ => some (u₁, fresh)
  | none => none

/-- `register` of `auth.controller.ts`.  `newId` is the fresh `_id`
Mongoose assigns to `new User(...)`; `fresh` the random refresh-token
value. -/
def register (hash : String → String) (sign : Nat → String) (db : List User)
    (email password name phone : String) (role : Option String)
    (fresh : String) (now : Nat) (newId : Nat) : List User × Resp :=
  match db.find? (fun u => u.email == email) with
  | some _ => (db, .error 409 "El correo ya está registrado.")
  | none =>
    let u : User :=
      { id := newId, email := email, password := password,
        passwordModified := true, name := name, phone := phone,
        role := resolveRole role, refreshTokens := [] }
    match saveUser hash u with
    | none => (db, .error 500 "Error interno del servidor.")
    | some u₁ =>
      let db₁ := dbSave db u₁
      match generateRefreshToken hash now fresh u₁ with
      | none => (db₁, .error 500 "Error interno del servidor.")
      | some (u₂, tok) =>
        (dbSave db₁ u₂,
         .loginOk (sign newId) tok ⟨u₂.id, u₂.name, u₂.role, u₂.email⟩)

/-- `login` of `auth.controller.ts`.  `comparePassword` is
`bcrypt.compare(candidate, storedHash)`, modelled as
`storedHash == hash candidate`. -/
def login (hash : String → String) (sign : Nat → String) (db : List User)
    (email password : String) (fresh : String) (now : Nat) :
    List User × Resp :=
  match db.find? (fun u => u.email == email) with
  | none => (db, .error 401 "Credenciales inválidas.")
  | some user =>
    if user.password == hash password then
      match generateRefreshToken hash now fresh user with
      | none => (db, .error 500 "Error interno del servidor.")
      | some (u₂, tok) =>
        (dbSave db u₂,
         .loginOk (sign user.id) tok ⟨user.id, user.name, user.role, user.email⟩)
    else
      (db, .error 401 "Credenciales inválidas.")

/-- `logout` of `auth.controller.ts`: 400 when the body token is falsy;
otherwise remove matching entries from whichever user holds the token
(if any) and always answer 200 with an empty body. -/
def logout (hash : String → String) (db : List User) (tok : Option String) :
    List User × Resp :=
  if strFalsy tok then
    (db, .error 400 "Refresh Token necesario para la revocación.")
  else
    let t := tok.getD ""
    match db.find? (fun u => u.refreshTokens.any (fun e => e.token == t)) with
    | some user =>
      let u₁ := { user with
                  refreshTokens := user.refreshTokens.filter (fun e => e.token != t) }
      match saveUser hash u₁ with
      | some u₂ => (dbSave db u₂, .emptyOk 200)
      | none => (db, .error 500 "Error interno del servidor.")
    | none => (db, .emptyOk 200)

/-- Phase 1 of `refreshToken`: `User.findOne({"refreshTokens.token": t})`. -/
def refreshFind (db : List User) (t : String) : Option User :=
  db.find? (fun u => u.refreshTokens.any (fun e => e.token == t))

/-- Phase 2 of `refreshToken`: everything after the `findOne`, operating
on the in-memory `user` document it returned and writing the result back
into the (current) collection. -/
def refreshApply (hash : String → String) (sign : Nat → String)
    (db : List User) (user : User) (t : String) (fresh : String) (now : Nat) :
    List User × Resp :=
  match user.refreshTokens.find? (fun e => e.token == t) with
  | none =>
    (db, .error 403 "Token de refresco expirado. Por favor, inicie sesión de nuevo.")
  | some stored =>
    if stored.expiresAt < now then
      let u₁ := { user with
                  refreshTokens := user.refreshTokens.filter (fun e => e.token != t) }
      match saveUser hash u₁ with
      | some u₂ =>
        (dbSave db u₂,
         .error 403 "Token de refresco expirado. Por favor, inicie sesión de nuevo.")
      | none => (db, .error 500 "Error interno del servidor al renovar token.")
    else
      let u₁ := { user with
                  refreshTokens := user.refreshTokens.filter (fun e => e.token != t) }
      match generateRefreshToken hash now fresh u₁ with
      | some (u₂, newTok) =>
        (dbSave db u₂,
         .refreshOk (sign user.id) newTok "Tokens renovados exitosamente.")
      | none => (db, .error 500 "Error interno del servidor al renovar token.")

/-- `refreshToken` of `auth.controller.ts` (the sequential request). -/
def refreshSession (hash : String → String) (sign : Nat → String)
    (db : List User) (tok : Option String) (fresh : String) (now : Nat) :
    List User × Resp :=
  if strFalsy tok then
    (db, .error 401 "Refresh Token requerido.")
  else
    let t := tok.getD ""
    match refreshFind db t with
    | none => (db, .error 403 "Token de refresco inválido o no encontrado.")
    | some user => refreshApply hash sign db user t fresh now

/-- `getUserInfoById` of `auth.utils.ts`: throws when no id was injected,
returns `none` when the id resolves to no user, otherwise the document
with the password deselected. -/
def getUserInfoById (db : List User) (userId : Option Nat) :
    Except String (Option UserInfo) :=
  match userId with
  | none => .error "Usuario no autenticado o ID no proporcionado."
  | some uid =>
    match db.find? (fun u => u.id == uid) with
    | none => .ok none
    | some u => .ok (some ⟨u.id, u.email, u.name, u.phone, u.role, u.refreshTokens⟩)

/-- `getMe` of `auth.controller.ts`. -/
def getMe (db : List User) (userId : Option Nat) : Resp :=
  match getUserInfoById db userId with
  | .error _ => .error 500 "Error interno del servidor."
  | .ok none => .error 404 "Perfil de usuario no encontrado."
  | .ok (some ui) => .profileOk ui

/-! ## Courier profile creation (`courier.controller.ts`) -/

/-- A courier profile document (`Courier.model`). -/
structure Courier where
  user : Nat
  vehicleType : String
  licensePlate : String
  status : String
deriving DecidableEq

/-- Responses of `createCourierProfile`. -/
inductive CResp where
  | cerror (status : Nat) (message : String)
  | created (message : String) (c : Courier)
deriving DecidableEq

/-- `createCourierProfile` of `courier.controller.ts`.  `callerId` and
`callerRole` are the fields the auth middleware injected from the access
token; body fields use the JS falsiness check. -/
def createCourierProfile (users : List User) (couriers : List Courier)
    (callerId : Nat) (callerRole : String)
    (vehicleType licensePlate : String) :
    (List User × List Courier) × CResp :=
  if callerRole != "courier" && callerRole != "admin" then
    ((users, couriers), .cerror 403 "Permiso denegado. Rol no autorizado.")
  else if vehicleType == "" || licensePlate == "" then
    ((users, couriers),
     .cerror 400 "Faltan campos obligatorios para el perfil de repartidor.")
  else
    match couriers.find? (fun c => c.user == callerId) with
    | some _ =>
      ((users, couriers), .cerror 400 "Ya tienes un perfil de repartidor activo.")
    | none =>
      let newCourier : Courier :=
        { user := callerId, vehicleType := vehicleType,
          licensePlate := licensePlate, status := "OFFLINE" }
      let couriers₁ := couriers ++ [newCourier]
      let users₁ :=
        users.map (fun u => if u.id == callerId then { u with role := "courier" } else u)
      ((users₁, couriers₁),
       .created "Perfil de repartidor creado exitosamente. Estado: OFFLINE."
         newCourier)

/-! ## Traces of auth operations (for the per-user token-cap invariant) -/

/-- One auth request, with the nondeterministic data (fresh random
token, current time, fresh id) made explicit. -/
inductive AuthOp where
  | opRegister (email password name phone : String) (role : Option String)
      (fresh : String) (now : Nat) (newId : Nat)
  | opLogin (email password : String) (fresh : String) (now : Nat)
  | opRefresh (tok : Option String) (fresh : String) (now : Nat)
  | opLogout (tok : Option String)

/-- The state transition of one request (its effect on the collection). -/
def stepOp (hash : String → String) (sign : Nat → String)
    (db : List User) : AuthOp → List User
  | .opRegister e p n ph r f now newId => (register hash sign db e p n ph r f now newId).1
  | .opLogin e p f now => (login hash sign db e p f now).1
  | .opRefresh tok f now => (refreshSession hash sign db tok f now).1
  | .opLogout tok => (logout hash db tok).1

/-- Run a sequence of requests from an initial collection. -/
def runOps (hash : String → String) (sign : Nat → String)
    (ops : List AuthOp) (db : List User) : List User :=
  ops.foldl (stepOp hash sign) db

/-- Every user's refresh-token list has at most 5 entries. -/
def capOK (db : List User) : Prop :=
  ∀ u ∈ db, u.refreshTokens.length ≤ 5

/-! ## String contents of responses (for the no-password-leak claim) -/

/-- Every string that occurs in the JSON serialization of a response. -/
def respStrings : Resp → List String
  | .error _ m => [m]
  | .loginOk t r u => [t, r, u.name, u.role, u.email]
  | .refreshOk t r m => [t, r, m]
  | .emptyOk _ => []
  | .profileOk ui =>
    [ui.email, ui.name, ui.phone, ui.role] ++ ui.refreshTokens.map (·.token)

/-! ## Basic lemmas about the persistence primitives -/

theorem map_id_on {α : Type} {f : α → α} {l : List α}
    (h : ∀ a ∈ l, f a = a) : l.map f = l := by
  induction l with
  | nil => rfl
  | cons a l ih =>
    simp only [List.map_cons, List.cons.injEq]
    exact ⟨h a (List.mem_cons_self a l), ih fun b hb => h b (List.mem_cons_of_mem a hb)⟩

/-- `save` does not change any field other than the password/dirty flag. -/
theorem saveUser_eq_some {hash : String → String} {u v : User}
    (h : saveUser hash u = some v) :
    v.id = u.id ∧ v.email = u.email ∧ v.name = u.name ∧ v.phone = u.phone ∧
    v.role = u.role ∧ v.refreshTokens = u.refreshTokens := by
  unfold saveUser at h
  split at h
  · split at h <;> (injection h with h; subst h; exact ⟨rfl, rfl, rfl, rfl, rfl, rfl⟩)
  · cases h

/-- `save` succeeds exactly on documents passing schema validation. -/
theorem saveUser_isSome {hash : String → String} {u : User}
    (h : validateUser u = true) :
    saveUser hash u =
      some (if u.passwordModified then
              { u with password := hash u.password, passwordModified := false }
            else u) := by
  unfold saveUser
  simp [h]

/-- Inversion for `generateRefreshToken`: the returned value is the fresh
token, and the saved document carries the pushed (and possibly shifted)
list. -/
theorem genRT_eq_some {hash : String → String} {now : Nat} {fresh : String}
    {u v : User} {tok : String}
    (h : generateRefreshToken hash now fresh u = some (v, tok)) :
    tok = fresh ∧ v.id = u.id ∧ v.email = u.email ∧ v.name = u.name ∧
    v.phone = u.phone ∧ v.role = u.role ∧
    v.refreshTokens =
      (if (u.refreshTokens ++ [newToken fresh now]).length > 5
       then (u.refreshTokens ++ [newToken fresh now]).drop 1
       else u.refreshTokens ++ [newToken fresh now]) := by
  unfold generateRefreshToken at h
  dsimp only at h
  split at h
  · next u₁ heq =>
    injection h with h
    injection h with h₁ h₂
    subst h₁
    obtain ⟨hid, hem, hnm, hph, hrl, htk⟩ := saveUser_eq_some heq
    exact ⟨h₂.symm, hid, hem, hnm, hph, hrl, htk⟩
  · cases h

/-- Every document of the collection after a persist is either the saved
document or one that was already there. -/
theorem dbSave_mem {db : List User} {u v : User} (h : v ∈ dbSave db u) :
    v = u ∨ v ∈ db := by
  unfold dbSave at h
  split at h
  · rcases List.mem_map.mp h with ⟨w, hw, hv⟩
    by_cases hid : (w.id == u.id) = true
    · rw [if_pos hid] at hv
      exact Or.inl hv.symm
    · rw [if_neg hid] at hv
      exact Or.inr (hv ▸ hw)
  · rcases List.mem_append.mp h with hl | hr
    · exact Or.inr hl
    · exact Or.inl (List.mem_singleton.mp hr)

/-- If the saved document's id is already present, persisting is a map
that only rewrites the documents with that id. -/
theorem dbSave_of_mem {db : List User} {u w : User}
    (hw : w ∈ db) (hid : w.id = u.id) :
    dbSave db u = db.map (fun v => if v.id == u.id then u else v) := by
  unfold dbSave
  rw [if_pos]
  rw [List.any_eq_true]
  exact ⟨w, hw, by simp [hid]⟩

/-- If the saved document's id is new, persisting appends it. -/
theorem dbSave_of_not_mem {db : List User} {u : User}
    (h : ∀ v ∈ db, v.id ≠ u.id) : dbSave db u = db ++ [u] := by
  unfold dbSave
  rw [if_neg]
  simp only [List.any_eq_true, not_exists]
  intro v
  simp only [not_and, beq_iff_eq]
  exact h v

theorem capOK_dbSave {db : List User} {u : User}
    (h : capOK db) (hu : u.refreshTokens.length ≤ 5) : capOK (dbSave db u) :=
  fun v hv => (dbSave_mem hv).elim (fun e => e ▸ hu) (h v)

/-- Refinement of `dbSave_mem` when some document already carries the
saved id: every remaining document either is the saved one or kept an id
different from it. -/
theorem mem_dbSave_of_mem_id {db : List User} {u w : User}
    (hw : w ∈ db) (hid : w.id = u.id) {v : User} (h : v ∈ dbSave db u) :
    v = u ∨ (v ∈ db ∧ v.id ≠ u.id) := by
  rw [dbSave_of_mem hw hid] at h
  rcases List.mem_map.mp h with ⟨x, hx, hvx⟩
  by_cases hxid : (x.id == u.id) = true
  · rw [if_pos hxid] at hvx
    exact Or.inl hvx.symm
  · rw [if_neg hxid] at hvx
    refine Or.inr ⟨hvx ▸ hx, ?_⟩
    rw [← hvx]
    simpa using hxid

/-- `save` throws a `ValidationError` exactly when validation fails. -/
theorem saveUser_none {hash : String → String} {u : User}
    (h : validateUser u = false) : saveUser hash u = none := by
  unfold saveUser
  simp [h]

/-! ## Concrete sample data used to exercise the theorems -/

def demoHash : String → String := fun s => String.append "hashed:" s

def demoSign : Nat → String := fun n => String.append "jwt:" (toString n)

def demoUser : User :=
  { id := 1, email := "a@x.com", password := "hashed:secret1",
    passwordModified := false, name := "Ana", phone := "555",
    role := "client", refreshTokens := [⟨"T", 1000, 0⟩] }

def demoAdmin : User :=
  { id := 3, email := "root@x.com", password := "hashed:admpw",
    passwordModified := false, name := "Root", phone := "777",
    role := "admin", refreshTokens := [] }

/-! ## C5 — login failures are indistinguishable -/

/-- C5: a `login` with an email matching no user and a `login` with an
existing email but a password failing verification produce identical
responses (both `401 "Credenciales inválidas."`), revealing nothing
about which check failed. -/
theorem spec_c5 (hash : String → String) (sign : Nat → String)
    (db : List User) (e₁ e₂ pw₁ pw₂ f₁ f₂ : String) (n₁ n₂ : Nat) (u : User)
    (h₁ : db.find? (fun v => v.email == e₁) = none)
    (h₂ : db.find? (fun v => v.email == e₂) = some u)
    (h₃ : u.password ≠ hash pw₂) :
    (login hash sign db e₁ pw₁ f₁ n₁).2 = (login hash sign db e₂ pw₂ f₂ n₂).2 ∧
    (login hash sign db e₁ pw₁ f₁ n₁).2 = .error 401 "Credenciales inválidas." := by
  unfold login
  rw [h₁, h₂]
  simp [h₃]

theorem spec_c5_witness :
    (login demoHash demoSign [demoUser] "b@x.com" "secret1" "F" 1).2
      = (login demoHash demoSign [demoUser] "a@x.com" "wrong" "F" 1).2 ∧
    (login demoHash demoSign [demoUser] "b@x.com" "secret1" "F" 1).2
      = .error 401 "Credenciales inválidas." :=
  spec_c5 demoHash demoSign [demoUser] "b@x.com" "a@x.com" "secret1" "wrong"
    "F" "F" 1 1 demoUser (by decide) (by decide) (by decide)

/-! ## C6 — logout error/success conditions -/

/-- C6 counterexample: the claim says `logout` fails with `BadRequest`
*iff no token was supplied*; but supplying the empty string as token
value also yields 400 (the code uses a JS falsiness check), not the
success response. -/
theorem spec_c6_cex :
    (logout demoHash [demoUser] (some "")).2
        = .error 400 "Refresh Token necesario para la revocación." ∧
    (logout demoHash [demoUser] (some "")).2 ≠ .emptyOk 200 := by decide

/-- C6 (amended): `logout` answers 400 iff the supplied token is falsy
(absent *or* empty); for every non-falsy token it answers the same empty
200 success whether or not the token matches any stored entry. -/
theorem spec_c6 (hash : String → String) (db : List User) (tok : Option String)
    (hwf : ∀ u ∈ db, roleValid u.role = true) :
    ((logout hash db tok).2
        = .error 400 "Refresh Token necesario para la revocación."
      ↔ strFalsy tok = true) ∧
    (strFalsy tok = false → (logout hash db tok).2 = .emptyOk 200) := by
  unfold logout
  by_cases hf : strFalsy tok = true
  · simp [hf]
  · have hf' : strFalsy tok = false := by simpa using hf
    rw [if_neg (by simp [hf'])]
    dsimp only
    cases hfind : db.find?
        (fun u => u.refreshTokens.any (fun e => e.token == tok.getD "")) with
    | none => simp [hf']
    | some user =>
      have hmem := List.mem_of_find?_eq_some hfind
      have hval : validateUser { user with
          refreshTokens :=
            user.refreshTokens.filter (fun e => e.token != tok.getD "") } = true := by
        simpa [validateUser] using hwf user hmem
      dsimp only
      rw [saveUser_isSome hval]
      simp [hf']

theorem spec_c6_witness :
    ((logout demoHash [demoUser] (some "X")).2
        = .error 400 "Refresh Token necesario para la revocación."
      ↔ strFalsy (some "X") = true) ∧
    (strFalsy (some "X") = false →
      (logout demoHash [demoUser] (some "X")).2 = .emptyOk 200) :=
  spec_c6 demoHash [demoUser] (some "X") (by decide)

/-! ## C8 — racing refreshes with the same token -/

/-- The collection read by both racing requests. -/
def raceUser : User :=
  { id := 1, email := "a@x.com", password := "hashed:pw",
    passwordModified := false, name := "Ana", phone := "555",
    role := "client", refreshTokens := [⟨"T", 9999, 0⟩] }

/-- The `findOne` both racing requests perform before either writes
(read–read–write–write interleaving). -/
def raceRead : Option User := refreshFind [raceUser] "T"

/-- Request 1 finishes first. -/
def raceRun1 : List User × Resp :=
  refreshApply demoHash demoSign [raceUser] raceUser "T" "N1" 100

/-- Request 2 then validates against its stale snapshot and writes. -/
def raceRun2 : List User × Resp :=
  refreshApply demoHash demoSign raceRun1.1 raceUser "T" "N2" 100

/-- C8: the rotation is a read-modify-write (`findOne`, in-memory
`filter`, `save`), not an atomic conditional update.  Interleaving two
requests that present the same token as read–read–write–write makes
*both* succeed with 200 (and the second write silently discards the
first rotation's replacement token), contradicting the required
at-most-one-success resolution. -/
theorem spec_c8_race :
    raceRead = some raceUser ∧
    raceRun1.2 = .refreshOk "jwt:1" "N1" "Tokens renovados exitosamente." ∧
    raceRun2.2 = .refreshOk "jwt:1" "N2" "Tokens renovados exitosamente." ∧
    raceRun2.1.map (fun u => u.refreshTokens.map RToken.token) = [["N2"]] := by
  decide

/-! ## C10 — courier profile creation demotes the caller's role -/

/-- C10: every successful `createCourierProfile` stores the new courier
document and unconditionally overwrites the calling user's role to
`"courier"`, whatever role the user document held before. -/
theorem spec_c10 (users : List User) (couriers : List Courier)
    (callerId : Nat) (callerRole vt lp : String)
    (hrole : callerRole = "courier" ∨ callerRole = "admin")
    (hvt : vt ≠ "") (hlp : lp ≠ "")
    (hnew : couriers.find? (fun c => c.user == callerId) = none) :
    createCourierProfile users couriers callerId callerRole vt lp =
      ((users.map (fun u => if u.id == callerId then { u with role := "courier" } else u),
        couriers ++ [⟨callerId, vt, lp, "OFFLINE"⟩]),
       .created "Perfil de repartidor creado exitosamente. Estado: OFFLINE."
         ⟨callerId, vt, lp, "OFFLINE"⟩) ∧
    ∀ u ∈ (createCourierProfile users couriers callerId callerRole vt lp).1.1,
      u.id = callerId → u.role = "courier" := by
  have hcond : (callerRole != "courier" && callerRole != "admin") = false := by
    rcases hrole with h | h <;> simp [h]
  have hvt' : (vt == "") = false := by simpa using hvt
  have hlp' : (lp == "") = false := by simpa using hlp
  have h1 : createCourierProfile users couriers callerId callerRole vt lp =
      ((users.map (fun u => if u.id == callerId then { u with role := "courier" } else u),
        couriers ++ [⟨callerId, vt, lp, "OFFLINE"⟩]),
       .created "Perfil de repartidor creado exitosamente. Estado: OFFLINE."
         ⟨callerId, vt, lp, "OFFLINE"⟩) := by
    unfold createCourierProfile
    rw [hcond, hvt', hlp', hnew]
    simp
  refine ⟨h1, ?_⟩
  rw [h1]
  intro u hu hid
  rcases List.mem_map.mp hu with ⟨w, hw, hwu⟩
  by_cases hwid : (w.id == callerId) = true
  · rw [if_pos hwid] at hwu
    rw [← hwu]
  · rw [if_neg hwid] at hwu
    exact absurd (hwu ▸ hid) (by simpa using hwid)

theorem spec_c10_witness :
    createCourierProfile [demoAdmin] [] 3 "admin" "moto" "XYZ123" =
      (([demoAdmin].map (fun u => if u.id == 3 then { u with role := "courier" } else u),
        [] ++ [⟨3, "moto", "XYZ123", "OFFLINE"⟩]),
       .created "Perfil de repartidor creado exitosamente. Estado: OFFLINE."
         ⟨3, "moto", "XYZ123", "OFFLINE"⟩) ∧
    ∀ u ∈ (createCourierProfile [demoAdmin] [] 3 "admin" "moto" "XYZ123").1.1,
      u.id = 3 → u.role = "courier" :=
  spec_c10 [demoAdmin] [] 3 "admin" "moto" "XYZ123" (Or.inr rfl)
    (by decide) (by decide) (by decide)

/-! ## Forward computation of the register success path -/

/-- The document `register` leaves in the store on success: password
hashed once by the first save, one refresh token appended by the second
save. -/
def registeredUser (hash : String → String) (email password name phone : String)
    (role : Option String) (fresh : String) (now : Nat) (newId : Nat) : User :=
  { id := newId, email := email, password := hash password,
    passwordModified := false, name := name, phone := phone,
    role := resolveRole role, refreshTokens := [newToken fresh now] }

/-- `generateRefreshToken` on a clean document whose list stays within
the cap: plain append, no eviction, no re-hash. -/
theorem genRT_of_small (hash : String → String) (now : Nat) (fresh : String)
    {u : User} (hval : validateUser u = true)
    (hmod : u.passwordModified = false)
    (hlen : (u.refreshTokens ++ [newToken fresh now]).length ≤ 5) :
    generateRefreshToken hash now fresh u =
      some ({ u with refreshTokens := u.refreshTokens ++ [newToken fresh now] }, fresh) := by
  unfold generateRefreshToken
  dsimp only
  rw [if_neg (by omega)]
  rw [saveUser_isSome (by simpa [validateUser] using hval)]
  simp [hmod]

/-- Persisting a changed copy of the last-appended document rewrites
just that last entry. -/
theorem dbSave_snoc {db : List User} {u v : User}
    (hid : ∀ w ∈ db, w.id ≠ v.id) (hv : u.id = v.id) :
    dbSave (db ++ [u]) v = db ++ [v] := by
  rw [dbSave_of_mem (w := u) (by simp) hv]
  rw [List.map_append]
  rw [map_id_on (fun w hw => if_neg (by simpa using hid w hw))]
  simp [hv]

/-- The success path of `register`, fully computed. -/
theorem register_ok (hash : String → String) (sign : Nat → String)
    (db : List User) (email pw name phone : String) (role : Option String)
    (fresh : String) (now : Nat) (newId : Nat)
    (hemail : db.find? (fun u => u.email == email) = none)
    (hid : ∀ v ∈ db, v.id ≠ newId)
    (hrole : roleValid (resolveRole role) = true) :
    register hash sign db email pw name phone role fresh now newId =
      (db ++ [registeredUser hash email pw name phone role fresh now newId],
       .loginOk (sign newId) fresh ⟨newId, name, resolveRole role, email⟩) := by
  unfold register
  rw [hemail]
  dsimp only
  rw [saveUser_isSome (by simpa [validateUser] using hrole)]
  simp only [if_true]
  rw [genRT_of_small hash now fresh (by simpa [validateUser] using hrole) rfl
    (by simp)]
  dsimp only
  rw [dbSave_of_not_mem (u := { id := newId, email := email, password := hash pw, passwordModified := false, name := name, phone := phone, role := resolveRole role, refreshTokens := [] }) hid]
  rw [dbSave_snoc (u := { id := newId, email := email, password := hash pw, passwordModified := false, name := name, phone := phone, role := resolveRole role, refreshTokens := [] }) (v := { id := newId, email := email, password := hash pw, passwordModified := false, name := name, phone := phone, role := resolveRole role, refreshTokens := [] ++ [newToken fresh now] }) hid rfl]
  rfl

/-! ## C9 — role taken verbatim from the request -/

/-- C9 counterexample: the claim says *any* non-empty role string the
caller supplies is stored verbatim; but a string outside the schema enum
(here `"superadmin"`) makes `save` throw a `ValidationError`, the request
answers 500 and no user document is created at all. -/
theorem spec_c9_cex :
    register demoHash demoSign [] "b@x.com" "pw" "B" "5" (some "superadmin")
        "F" 10 8
      = ([], .error 500 "Error interno del servidor.") := by decide

/-- C9 (amended): for an unused email, a supplied non-empty role that
belongs to the schema enum (`client`/`store`/`courier`/`admin`) is stored
verbatim on the created user — including `"admin"`, with no authorization
check; the default `"client"` applies exactly when the role field is
missing or empty; any other non-empty string is rejected by schema
validation (500, nothing stored). -/
theorem spec_c9 (hash : String → String) (sign : Nat → String)
    (db : List User) (email pw name phone : String) (role : Option String)
    (fresh : String) (now : Nat) (newId : Nat)
    (hemail : db.find? (fun u => u.email == email) = none)
    (hid : ∀ v ∈ db, v.id ≠ newId) :
    (∀ r, role = some r → r ≠ "" → roleValid r = true →
       register hash sign db email pw name phone role fresh now newId =
         (db ++ [registeredUser hash email pw name phone role fresh now newId],
          .loginOk (sign newId) fresh ⟨newId, name, r, email⟩) ∧
       (registeredUser hash email pw name phone role fresh now newId).role = r) ∧
    ((role = none ∨ role = some "") →
       register hash sign db email pw name phone role fresh now newId =
         (db ++ [registeredUser hash email pw name phone role fresh now newId],
          .loginOk (sign newId) fresh ⟨newId, name, "client", email⟩) ∧
       (registeredUser hash email pw name phone role fresh now newId).role
         = "client") ∧
    (∀ r, role = some r → r ≠ "" → roleValid r = false →
       register hash sign db email pw name phone role fresh now newId =
         (db, .error 500 "Error interno del servidor.")) := by
  refine ⟨?_, ?_, ?_⟩
  · intro r hr hne hval
    have hres : resolveRole role = r := by
      subst hr
      simp [resolveRole, hne]
    rw [register_ok hash sign db email pw name phone role fresh now newId
      hemail hid (hres ▸ hval), hres]
    exact ⟨rfl, by simp [registeredUser, hres]⟩
  · intro hr
    have hres : resolveRole role = "client" := by
      rcases hr with h | h <;> subst h <;> simp [resolveRole]
    rw [register_ok hash sign db email pw name phone role fresh now newId
      hemail hid (by rw [hres]; decide), hres]
    exact ⟨rfl, by simp [registeredUser, hres]⟩
  · intro r hr hne hval
    have hres : resolveRole role = r := by
      subst hr
      simp [resolveRole, hne]
    unfold register
    rw [hemail]
    dsimp only
    rw [saveUser_none (by simpa [validateUser, hres] using hval)]

theorem spec_c9_witness :
    register demoHash demoSign [] "b@x.com" "pw" "B" "5" (some "admin") "F" 10 8
      = ([] ++ [registeredUser demoHash "b@x.com" "pw" "B" "5" (some "admin") "F" 10 8],
         .loginOk (demoSign 8) "F" ⟨8, "B", "admin", "b@x.com"⟩) ∧
    (registeredUser demoHash "b@x.com" "pw" "B" "5" (some "admin") "F" 10 8).role
      = "admin" :=
  (spec_c9 demoHash demoSign [] "b@x.com" "pw" "B" "5" (some "admin") "F" 10 8
    (by decide) (by decide)).1 "admin" rfl (by decide) (by decide)

/-! ## C3 — expiry handling on refresh -/

/-- C3 counterexample: the claim says a token whose `expiresAt` equals
the current time is treated as expired; the code's check is the strict
`expiresAt < now`, so at `expiresAt = now` the refresh *succeeds* and
rotates instead of answering 403. -/
theorem spec_c3_cex :
    (refreshSession demoHash demoSign [demoUser] (some "T") "N" 1000).2
      = .refreshOk "jwt:1" "N" "Tokens renovados exitosamente." ∧
    (refreshSession demoHash demoSign [demoUser] (some "T") "N" 1000).2
      ≠ .error 403 "Token de refresco expirado. Por favor, inicie sesión de nuevo." := by
  decide

/-- C3 (amended): when the presented token is found but strictly expired
(`expiresAt < now`), refresh removes every entry with that value from the
owning user, persists, and answers the 403 expired error; the boundary
`expiresAt = now` is treated as still valid (see the counterexample). -/
theorem spec_c3 (hash : String → String) (sign : Nat → String)
    (db : List User) (t fresh : String) (now : Nat) (u : User) (st : RToken)
    (hwf : ∀ v ∈ db, roleValid v.role = true)
    (ht : t ≠ "")
    (hfind : refreshFind db t = some u)
    (hst : u.refreshTokens.find? (fun e => e.token == t) = some st)
    (hexp : st.expiresAt < now) :
    (refreshSession hash sign db (some t) fresh now).2
        = .error 403 "Token de refresco expirado. Por favor, inicie sesión de nuevo." ∧
    ∀ v ∈ (refreshSession hash sign db (some t) fresh now).1,
      v.id = u.id → ∀ e ∈ v.refreshTokens, e.token ≠ t := by
  have hmem : u ∈ db := List.mem_of_find?_eq_some hfind
  have hses : refreshSession hash sign db (some t) fresh now
      = (dbSave db (if u.passwordModified then
            { u with refreshTokens := u.refreshTokens.filter (fun e => e.token != t),
                     password := hash u.password, passwordModified := false }
          else
            { u with refreshTokens := u.refreshTokens.filter (fun e => e.token != t) }),
         .error 403 "Token de refresco expirado. Por favor, inicie sesión de nuevo.") := by
    unfold refreshSession
    rw [if_neg (by simp [strFalsy, ht])]
    dsimp only [Option.getD]
    rw [hfind]
    unfold refreshApply
    dsimp only
    rw [hst]
    dsimp only
    rw [if_pos hexp]
    rw [saveUser_isSome (by simpa [validateUser] using hwf u hmem)]
  rw [hses]
  refine ⟨rfl, ?_⟩
  intro v hv hvid e he
  have hid0 : u.id = (if u.passwordModified then
      { u with refreshTokens := u.refreshTokens.filter (fun e => e.token != t),
               password := hash u.password, passwordModified := false }
    else
      { u with refreshTokens := u.refreshTokens.filter (fun e => e.token != t) }).id := by
    by_cases hm : u.passwordModified = true <;> simp [hm]
  rcases mem_dbSave_of_mem_id hmem hid0 hv with hveq | ⟨_, hvne⟩
  · subst hveq
    by_cases hm : u.passwordModified = true
    · rw [if_pos hm] at he
      have := (List.mem_filter.mp he).2
      simpa using this
    · rw [if_neg hm] at he
      have := (List.mem_filter.mp he).2
      simpa using this
  · exact absurd (hvid.trans hid0) hvne

theorem spec_c3_witness :
    (refreshSession demoHash demoSign [demoUser] (some "T") "N" 1001).2
        = .error 403 "Token de refresco expirado. Por favor, inicie sesión de nuevo." ∧
    ∀ v ∈ (refreshSession demoHash demoSign [demoUser] (some "T") "N" 1001).1,
      v.id = demoUser.id → ∀ e ∈ v.refreshTokens, e.token ≠ "T" :=
  spec_c3 demoHash demoSign [demoUser] "T" "N" 1001 demoUser ⟨"T", 1000, 0⟩
    (by decide) (by decide) (by decide) (by decide) (by decide)

/-! ## C4 — login immediately after register -/

/-- C4: for an unused email (and a valid role), `register` succeeds,
storing a password that is the hash of the plaintext applied exactly once
(the second save inside `generateRefreshToken` does not re-hash because
the password path is no longer modified); `login` right after with the
same `(email, password)` then succeeds, and — the fresh random values
being distinct — returns a different refresh token than registration. -/
theorem spec_c4 (hash : String → String) (sign : Nat → String)
    (db : List User) (email pw name phone : String) (role : Option String)
    (fresh₁ fresh₂ : String) (now₁ now₂ : Nat) (newId : Nat)
    (hemail : db.find? (fun u => u.email == email) = none)
    (hid : ∀ v ∈ db, v.id ≠ newId)
    (hrole : roleValid (resolveRole role) = true)
    (hfresh : fresh₂ ≠ fresh₁) :
    register hash sign db email pw name phone role fresh₁ now₁ newId =
      (db ++ [registeredUser hash email pw name phone role fresh₁ now₁ newId],
       .loginOk (sign newId) fresh₁ ⟨newId, name, resolveRole role, email⟩) ∧
    (registeredUser hash email pw name phone role fresh₁ now₁ newId).password
      = hash pw ∧
    (login hash sign
        (db ++ [registeredUser hash email pw name phone role fresh₁ now₁ newId])
        email pw fresh₂ now₂).2
      = .loginOk (sign newId) fresh₂ ⟨newId, name, resolveRole role, email⟩ ∧
    fresh₂ ≠ fresh₁ := by
  refine ⟨register_ok hash sign db email pw name phone role fresh₁ now₁ newId
    hemail hid hrole, rfl, ?_, hfresh⟩
  unfold login
  have hfind : (db ++ [registeredUser hash email pw name phone role fresh₁ now₁ newId]).find?
      (fun u => u.email == email)
      = some (registeredUser hash email pw name phone role fresh₁ now₁ newId) := by
    rw [List.find?_append, hemail, Option.none_or]
    simp [List.find?, registeredUser]
  rw [hfind]
  dsimp only
  rw [if_pos (by simp [registeredUser])]
  rw [genRT_of_small hash now₂ fresh₂ (by simpa [validateUser, registeredUser] using hrole)
    rfl (by simp [registeredUser])]
  rfl

theorem spec_c4_witness :
    register demoHash demoSign [] "a@x.com" "pw" "Ana" "555" none "F1" 10 7 =
      ([] ++ [registeredUser demoHash "a@x.com" "pw" "Ana" "555" none "F1" 10 7],
       .loginOk (demoSign 7) "F1" ⟨7, "Ana", resolveRole none, "a@x.com"⟩) ∧
    (registeredUser demoHash "a@x.com" "pw" "Ana" "555" none "F1" 10 7).password
      = demoHash "pw" ∧
    (login demoHash demoSign
        ([] ++ [registeredUser demoHash "a@x.com" "pw" "Ana" "555" none "F1" 10 7])
        "a@x.com" "pw" "F2" 20).2
      = .loginOk (demoSign 7) "F2" ⟨7, "Ana", resolveRole none, "a@x.com"⟩ ∧
    ("F2" : String) ≠ "F1" :=
  spec_c4 demoHash demoSign [] "a@x.com" "pw" "Ana" "555" none "F1" "F2" 10 20 7
    (by decide) (by decide) (by decide) (by decide)

/-! ## C7 — the password hash never appears in a response -/

/-- Every fixed message literal the auth controllers can emit. -/
def authMessages : List String :=
  ["El correo ya está registrado.", "Error interno del servidor.",
   "Credenciales inválidas.", "Refresh Token necesario para la revocación.",
   "Refresh Token requerido.", "Token de refresco inválido o no encontrado.",
   "Token de refresco expirado. Por favor, inicie sesión de nuevo.",
   "Error interno del servidor al renovar token.",
   "Tokens renovados exitosamente.", "Perfil de usuario no encontrado."]

/-- `p` differs from every string the API may legitimately expose: the
non-password fields (and signed ids) of the stored users, the fixed
message literals, and the operation's own inputs in `extra`.  A stored
bcrypt hash satisfies this for every reachable state. -/
def avoids (p : String) (sign : Nat → String) (db : List User)
    (extra : List String) : Prop :=
  (∀ u ∈ db, p ≠ u.email ∧ p ≠ u.name ∧ p ≠ u.phone ∧ p ≠ u.role ∧
      p ≠ sign u.id ∧ ∀ e ∈ u.refreshTokens, p ≠ e.token) ∧
  (∀ s ∈ authMessages, p ≠ s) ∧
  (∀ s ∈ extra, p ≠ s)

/-- C7: none of the five exposed operations ever places a string `p` in
its response payload unless `p` is one of the legitimately exposed
non-password strings — so the stored password hash (which coincides with
none of them) never appears: register/login project only id/name/role/
email, refresh returns only tokens and a message, logout is empty, and
`getMe` returns the document with the password deselected. -/
theorem spec_c7 (hash : String → String) (sign : Nat → String) (p : String) :
    (∀ db email pw name phone role fresh now newId,
       avoids p sign db [email, name, phone, resolveRole role, fresh, sign newId] →
       p ∉ respStrings (register hash sign db email pw name phone role fresh now newId).2) ∧
    (∀ db email pw fresh now,
       avoids p sign db [fresh] →
       p ∉ respStrings (login hash sign db email pw fresh now).2) ∧
    (∀ db tok,
       avoids p sign db [] →
       p ∉ respStrings (logout hash db tok).2) ∧
    (∀ db tok fresh now,
       avoids p sign db [fresh] →
       p ∉ respStrings (refreshSession hash sign db tok fresh now).2) ∧
    (∀ db uid,
       avoids p sign db [] →
       p ∉ respStrings (getMe db uid)) := by
  refine ⟨?_, ?_, ?_, ?_, ?_⟩
  · intro db email pw name phone role fresh now newId h
    obtain ⟨hdb, hmsg, hextra⟩ := h
    unfold register
    cases hfind : db.find? (fun u => u.email == email) with
    | some u =>
      dsimp only
      simp only [respStrings, List.mem_singleton]
      exact hmsg _ (by simp [authMessages])
    | none =>
      dsimp only
      cases hs : saveUser hash { id := newId, email := email, password := pw, passwordModified := true, name := name, phone := phone, role := resolveRole role, refreshTokens := [] } with
      | none =>
        dsimp only
        simp only [respStrings, List.mem_singleton]
        exact hmsg _ (by simp [authMessages])
      | some u₁ =>
        dsimp only
        obtain ⟨hid1, hem1, hnm1, hph1, hrl1, htk1⟩ := saveUser_eq_some hs
        cases hg : generateRefreshToken hash now fresh u₁ with
        | none =>
          dsimp only
          simp only [respStrings, List.mem_singleton]
          exact hmsg _ (by simp [authMessages])
        | some pr =>
          obtain ⟨u₂, tok⟩ := pr
          dsimp only
          obtain ⟨htok, hid2, hem2, hnm2, hph2, hrl2, _⟩ := genRT_eq_some hg
          simp only [respStrings, List.mem_cons, List.mem_singleton, not_or]
          refine ⟨hextra _ (by simp), ?_, ?_, ?_, ⟨?_, by simp⟩⟩
          · rw [htok]
            exact hextra _ (by simp)
          · rw [hnm2, hnm1]
            exact hextra _ (by simp)
          · rw [hrl2, hrl1]
            exact hextra _ (by simp)
          · rw [hem2, hem1]
            exact hextra _ (by simp)
  · intro db email pw fresh now h
    obtain ⟨hdb, hmsg, hextra⟩ := h
    unfold login
    cases hfind : db.find? (fun u => u.email == email) with
    | none =>
      dsimp only
      simp only [respStrings, List.mem_singleton]
      exact hmsg _ (by simp [authMessages])
    | some user =>
      dsimp only
      have hu := hdb user (List.mem_of_find?_eq_some hfind)
      by_cases hpw : (user.password == hash pw) = true
      · rw [if_pos hpw]
        cases hg : generateRefreshToken hash now fresh user with
        | none =>
          dsimp only
          simp only [respStrings, List.mem_singleton]
          exact hmsg _ (by simp [authMessages])
        | some pr =>
          obtain ⟨u₂, tok⟩ := pr
          dsimp only
          obtain ⟨htok, _, _, _, _, _, _⟩ := genRT_eq_some hg
          simp only [respStrings, List.mem_cons, List.mem_singleton, not_or]
          refine ⟨hu.2.2.2.2.1, ?_, hu.2.1, hu.2.2.2.1, ⟨hu.1, by simp⟩⟩
          rw [htok]
          exact hextra _ (by simp)
      · rw [if_neg hpw]
        simp only [respStrings, List.mem_singleton]
        exact hmsg _ (by simp [authMessages])
  · intro db tok h
    obtain ⟨hdb, hmsg, hextra⟩ := h
    unfold logout
    by_cases hf : strFalsy tok = true
    · rw [if_pos hf]
      simp only [respStrings, List.mem_singleton]
      exact hmsg _ (by simp [authMessages])
    · rw [if_neg hf]
      dsimp only
      cases hfind : db.find? (fun u => u.refreshTokens.any (fun e => e.token == tok.getD "")) with
      | none =>
        simp [respStrings]
      | some user =>
        dsimp only
        cases hs : saveUser hash { user with refreshTokens := user.refreshTokens.filter (fun e => e.token != tok.getD "") } with
        | some u₂ =>
          dsimp only
          simp [respStrings]
        | none =>
          dsimp only
          simp only [respStrings, List.mem_singleton]
          exact hmsg _ (by simp [authMessages])
  · intro db tok fresh now h
    obtain ⟨hdb, hmsg, hextra⟩ := h
    unfold refreshSession
    by_cases hf : strFalsy tok = true
    · rw [if_pos hf]
      simp only [respStrings, List.mem_singleton]
      exact hmsg _ (by simp [authMessages])
    · rw [if_neg hf]
      dsimp only
      cases hfind : refreshFind db (tok.getD "") with
      | none =>
        dsimp only
        simp only [respStrings, List.mem_singleton]
        exact hmsg _ (by simp [authMessages])
      | some user =>
        dsimp only
        unfold refreshFind at hfind
        have hu := hdb user (List.mem_of_find?_eq_some hfind)
        unfold refreshApply
        dsimp only
        cases hst : user.refreshTokens.find? (fun e => e.token == tok.getD "") with
        | none =>
          dsimp only
          simp only [respStrings, List.mem_singleton]
          exact hmsg _ (by simp [authMessages])
        | some st =>
          dsimp only
          by_cases hexp : st.expiresAt < now
          · rw [if_pos hexp]
            cases hs : saveUser hash { user with refreshTokens := user.refreshTokens.filter (fun e => e.token != tok.getD "") } with
            | some u₂ =>
              dsimp only
              simp only [respStrings, List.mem_singleton]
              exact hmsg _ (by simp [authMessages])
            | none =>
              dsimp only
              simp only [respStrings, List.mem_singleton]
              exact hmsg _ (by simp [authMessages])
          · rw [if_neg hexp]
            cases hg : generateRefreshToken hash now fresh { user with refreshTokens := user.refreshTokens.filter (fun e => e.token != tok.getD "") } with
            | none =>
              dsimp only
              simp only [respStrings, List.mem_singleton]
              exact hmsg _ (by simp [authMessages])
            | some pr =>
              obtain ⟨u₂, ntok⟩ := pr
              dsimp only
              obtain ⟨htok, _, _, _, _, _, _⟩ := genRT_eq_some hg
              simp only [respStrings, List.mem_cons, List.mem_singleton, not_or]
              refine ⟨hu.2.2.2.2.1, ?_, ⟨hmsg _ (by simp [authMessages]), by simp⟩⟩
              rw [htok]
              exact hextra _ (by simp)
  · intro db uid h
    obtain ⟨hdb, hmsg, _⟩ := h
    unfold getMe getUserInfoById
    cases uid with
    | none =>
      simp only [respStrings, List.mem_singleton]
      exact hmsg _ (by simp [authMessages])
    | some i =>
      dsimp only
      cases hfind : db.find? (fun u => u.id == i) with
      | none =>
        simp only [respStrings, List.mem_singleton]
        exact hmsg _ (by simp [authMessages])
      | some u =>
        dsimp only
        have hu := hdb u (List.mem_of_find?_eq_some hfind)
        simp only [respStrings, List.mem_append, List.mem_cons, List.mem_singleton,
          not_or, List.mem_map, not_exists, not_and]
        refine ⟨⟨hu.1, hu.2.1, hu.2.2.1, ⟨hu.2.2.2.1, by simp⟩⟩, ?_⟩
        intro e he heq
        exact hu.2.2.2.2.2 e he heq.symm

theorem spec_c7_witness :
    "hashed:secret1" ∉
      respStrings (login demoHash demoSign [demoUser] "a@x.com" "secret1" "F" 1).2 :=
  (spec_c7 demoHash demoSign "hashed:secret1").2.1 [demoUser] "a@x.com" "secret1"
    "F" 1 (by unfold avoids; decide)

/-! ## C1 — a rotated refresh token can never be replayed -/

/-- The predicate `User.findOne({"refreshTokens.token": t})` filters on. -/
def holdsToken (u : User) (t : String) : Bool :=
  u.refreshTokens.any (fun e => e.token == t)

/-- C1: if a refresh presenting token `t` succeeds (rotates), then —
provided at most one user held `t` (token values are 256-bit random) and
the freshly drawn replacement differs from `t` — no entry with value `t`
remains anywhere in the store, and any later refresh presenting `t`
fails with the 403 not-found error: no replay. -/
theorem spec_c1 (hash : String → String) (sign sign₂ : Nat → String)
    (db db₂ : List User) (t fresh fresh₂ : String) (now now₂ : Nat)
    (a b m : String)
    (hone : ∀ v ∈ db, ∀ w ∈ db,
      holdsToken v t = true → holdsToken w t = true → v = w)
    (hfresh : fresh ≠ t)
    (hsucc : refreshSession hash sign db (some t) fresh now
      = (db₂, Resp.refreshOk a b m)) :
    (∀ v ∈ db₂, ∀ e ∈ v.refreshTokens, e.token ≠ t) ∧
    (refreshSession hash sign₂ db₂ (some t) fresh₂ now₂).2
      = .error 403 "Token de refresco inválido o no encontrado." := by
  unfold refreshSession at hsucc
  by_cases hf : strFalsy (some t) = true
  · rw [if_pos hf] at hsucc
    simp at hsucc
  · rw [if_neg hf] at hsucc
    dsimp only [Option.getD] at hsucc
    cases hfind : refreshFind db t with
    | none =>
      rw [hfind] at hsucc
      simp at hsucc
    | some user =>
      rw [hfind] at hsucc
      unfold refreshFind at hfind
      have hmem : user ∈ db := List.mem_of_find?_eq_some hfind
      have hheld : holdsToken user t = true := by
        simpa [holdsToken] using List.find?_some hfind
      unfold refreshApply at hsucc
      dsimp only at hsucc
      cases hst : user.refreshTokens.find? (fun e => e.token == t) with
      | none =>
        rw [hst] at hsucc
        simp at hsucc
      | some st =>
        rw [hst] at hsucc
        dsimp only at hsucc
        by_cases hexp : st.expiresAt < now
        · rw [if_pos hexp] at hsucc
          cases hs : saveUser hash { user with refreshTokens := user.refreshTokens.filter (fun e => e.token != t) } with
          | some u₂ =>
            rw [hs] at hsucc
            simp at hsucc
          | none =>
            rw [hs] at hsucc
            simp at hsucc
        · rw [if_neg hexp] at hsucc
          cases hg : generateRefreshToken hash now fresh { user with refreshTokens := user.refreshTokens.filter (fun e => e.token != t) } with
          | none =>
            rw [hg] at hsucc
            simp at hsucc
          | some pr =>
            obtain ⟨u₂, ntok⟩ := pr
            rw [hg] at hsucc
            dsimp only at hsucc
            have hdb₂ : db₂ = dbSave db u₂ := (Prod.ext_iff.mp hsucc).1.symm
            obtain ⟨hntok, huid, _, _, _, _, htk⟩ := genRT_eq_some hg
            have hnot : ∀ e ∈ u₂.refreshTokens, e.token ≠ t := by
              intro e he
              rw [htk] at he
              have he₂ : e ∈ user.refreshTokens.filter (fun e => e.token != t)
                  ++ [newToken fresh now] := by
                by_cases hc : (({ user with refreshTokens := user.refreshTokens.filter (fun e => e.token != t) } : User).refreshTokens ++ [newToken fresh now]).length > 5
                · rw [if_pos hc] at he
                  exact List.mem_of_mem_drop he
                · rw [if_neg hc] at he
                  exact he
              rcases List.mem_append.mp he₂ with hfl | hnt
              · have := (List.mem_filter.mp hfl).2
                simpa using this
              · rw [List.mem_singleton.mp hnt]
                simpa [newToken] using hfresh
            have hclear : ∀ v ∈ db₂, ∀ e ∈ v.refreshTokens, e.token ≠ t := by
              intro v hv e he
              rw [hdb₂] at hv
              rcases mem_dbSave_of_mem_id hmem huid.symm hv with hvu | ⟨hvdb, hvid⟩
              · exact hnot e (hvu ▸ he)
              · intro heq
                have hvheld : holdsToken v t = true := by
                  unfold holdsToken
                  rw [List.any_eq_true]
                  exact ⟨e, he, by simp [heq]⟩
                have : v = user := hone v hvdb user hmem hvheld hheld
                exact hvid (by rw [this, huid])
            refine ⟨hclear, ?_⟩
            unfold refreshSession
            rw [if_neg hf]
            dsimp only [Option.getD]
            have hnone : refreshFind db₂ t = none := by
              unfold refreshFind
              rw [List.find?_eq_none]
              intro v hv
              simp only [List.any_eq_true, not_exists, not_and]
              intro e he
              simpa using hclear v hv e he
            rw [hnone]

theorem spec_c1_witness :
    (∀ v ∈ [{ demoUser with refreshTokens := [⟨"N", 604800500, 500⟩] }],
      ∀ e ∈ v.refreshTokens, e.token ≠ "T") ∧
    (refreshSession demoHash demoSign
        [{ demoUser with refreshTokens := [⟨"N", 604800500, 500⟩] }]
        (some "T") "N2" 600).2
      = .error 403 "Token de refresco inválido o no encontrado." :=
  spec_c1 demoHash demoSign demoSign [demoUser]
    [{ demoUser with refreshTokens := [⟨"N", 604800500, 500⟩] }]
    "T" "N" "N2" 500 600 "jwt:1" "N" "Tokens renovados exitosamente."
    (by decide) (by decide) (by decide)

/-! ## C2 — per-user token cap and FIFO eviction -/

/-- `generateRefreshToken` keeps a within-cap list within the cap. -/
theorem genRT_length_le {hash : String → String} {now : Nat} {fresh : String}
    {u v : User} {tok : String}
    (hu : u.refreshTokens.length ≤ 5)
    (hg : generateRefreshToken hash now fresh u = some (v, tok)) :
    v.refreshTokens.length ≤ 5 := by
  obtain ⟨_, _, _, _, _, _, htk⟩ := genRT_eq_some hg
  rw [htk]
  by_cases hc : (u.refreshTokens ++ [newToken fresh now]).length > 5
  · rw [if_pos hc]
    simp only [List.length_drop, List.length_append, List.length_singleton]
    omega
  · rw [if_neg hc]
    simp only [List.length_append, List.length_singleton] at hc ⊢
    omega

theorem capOK_register {hash : String → String} {sign : Nat → String}
    {db : List User} {e p n ph : String} {r : Option String} {f : String}
    {now newId : Nat} (h : capOK db) :
    capOK (register hash sign db e p n ph r f now newId).1 := by
  unfold register
  cases hfind : db.find? (fun u => u.email == e) with
  | some u => exact h
  | none =>
    dsimp only
    cases hs : saveUser hash { id := newId, email := e, password := p, passwordModified := true, name := n, phone := ph, role := resolveRole r, refreshTokens := [] } with
    | none => exact h
    | some u₁ =>
      dsimp only
      have hlen1 : u₁.refreshTokens.length ≤ 5 := by
        rw [(saveUser_eq_some hs).2.2.2.2.2]
        simp
      cases hg : generateRefreshToken hash now f u₁ with
      | none => exact capOK_dbSave h hlen1
      | some pr =>
        obtain ⟨u₂, tok⟩ := pr
        exact capOK_dbSave (capOK_dbSave h hlen1) (genRT_length_le hlen1 hg)

theorem capOK_login {hash : String → String} {sign : Nat → String}
    {db : List User} {e p f : String} {now : Nat} (h : capOK db) :
    capOK (login hash sign db e p f now).1 := by
  unfold login
  cases hfind : db.find? (fun u => u.email == e) with
  | none => exact h
  | some user =>
    dsimp only
    by_cases hpw : (user.password == hash p) = true
    · rw [if_pos hpw]
      cases hg : generateRefreshToken hash now f user with
      | none => exact h
      | some pr =>
        obtain ⟨u₂, tok⟩ := pr
        exact capOK_dbSave h
          (genRT_length_le (h user (List.mem_of_find?_eq_some hfind)) hg)
    · rw [if_neg hpw]
      exact h

theorem capOK_logout {hash : String → String} {db : List User}
    {tok : Option String} (h : capOK db) :
    capOK (logout hash db tok).1 := by
  unfold logout
  by_cases hf : strFalsy tok = true
  · rw [if_pos hf]
    exact h
  · rw [if_neg hf]
    dsimp only
    cases hfind : db.find? (fun u => u.refreshTokens.any (fun e => e.token == tok.getD "")) with
    | none => exact h
    | some user =>
      dsimp only
      cases hs : saveUser hash { user with refreshTokens := user.refreshTokens.filter (fun e => e.token != tok.getD "") } with
      | some u₂ =>
        have hl : u₂.refreshTokens.length ≤ 5 := by
          rw [(saveUser_eq_some hs).2.2.2.2.2]
          exact le_trans (List.length_filter_le _ _)
            (h user (List.mem_of_find?_eq_some hfind))
        exact capOK_dbSave h hl
      | none => exact h

theorem capOK_refresh {hash : String → String} {sign : Nat → String}
    {db : List User} {tok : Option String} {fresh : String} {now : Nat}
    (h : capOK db) :
    capOK (refreshSession hash sign db tok fresh now).1 := by
  unfold refreshSession
  by_cases hf : strFalsy tok = true
  · rw [if_pos hf]
    exact h
  · rw [if_neg hf]
    dsimp only
    cases hfind : refreshFind db (tok.getD "") with
    | none => exact h
    | some user =>
      dsimp only
      have hmem : user ∈ db := by
        unfold refreshFind at hfind
        exact List.mem_of_find?_eq_some hfind
      unfold refreshApply
      dsimp only
      cases hst : user.refreshTokens.find? (fun e => e.token == tok.getD "") with
      | none => exact h
      | some st =>
        dsimp only
        by_cases hexp : st.expiresAt < now
        · rw [if_pos hexp]
          cases hs : saveUser hash { user with refreshTokens := user.refreshTokens.filter (fun e => e.token != tok.getD "") } with
          | some u₂ =>
            have hl : u₂.refreshTokens.length ≤ 5 := by
              rw [(saveUser_eq_some hs).2.2.2.2.2]
              exact le_trans (List.length_filter_le _ _) (h user hmem)
            exact capOK_dbSave h hl
          | none => exact h
        · rw [if_neg hexp]
          cases hg : generateRefreshToken hash now fresh { user with refreshTokens := user.refreshTokens.filter (fun e => e.token != tok.getD "") } with
          | none => exact h
          | some pr =>
            obtain ⟨u₂, ntok⟩ := pr
            have hl : ({ user with refreshTokens := user.refreshTokens.filter (fun e => e.token != tok.getD "") } : User).refreshTokens.length ≤ 5 :=
              le_trans (List.length_filter_le _ _) (h user hmem)
            exact capOK_dbSave h (genRT_length_le hl hg)

theorem capOK_stepOp (hash : String → String) (sign : Nat → String)
    (db : List User) (op : AuthOp) (h : capOK db) :
    capOK (stepOp hash sign db op) := by
  cases op with
  | opRegister e p n ph r f now newId => exact capOK_register h
  | opLogin e p f now => exact capOK_login h
  | opRefresh tok f now => exact capOK_refresh h
  | opLogout tok => exact capOK_logout h

/-- `generateRefreshToken` at the cap evicts the head of the list. -/
theorem genRT_evict (hash : String → String) (now : Nat) (fresh : String)
    {u : User} {e₀ : RToken} {rest : List RToken}
    (hcons : u.refreshTokens = e₀ :: rest)
    (hlen : u.refreshTokens.length = 5)
    (hval : validateUser u = true)
    (hmod : u.passwordModified = false) :
    generateRefreshToken hash now fresh u
      = some ({ u with refreshTokens := rest ++ [newToken fresh now] }, fresh) := by
  unfold generateRefreshToken
  dsimp only
  rw [if_pos (by simp [List.length_append, hlen])]
  rw [hcons, List.cons_append, List.drop_one, List.tail_cons]
  rw [saveUser_isSome (by simpa [validateUser] using hval)]
  simp [hmod]

/-- C2: (i) along every sequence of register/login/refresh/logout
requests, every user's refresh-token list stays within 5 entries;
(ii) issuing a token to a user already holding 5 evicts the head entry,
which — the list being ordered by `createdAt` — is an entry with the
oldest `createdAt`; and a head token value absent from the rest and from
the fresh value (e.g. the very first issued token) is no longer present
afterwards. -/
theorem spec_c2 (hash : String → String) (sign : Nat → String) :
    (∀ ops db, capOK db → capOK (runOps hash sign ops db)) ∧
    (∀ now fresh (u : User) (e₀ : RToken) (rest : List RToken),
       u.refreshTokens = e₀ :: rest →
       u.refreshTokens.length = 5 →
       validateUser u = true →
       u.passwordModified = false →
       List.Pairwise (fun a b => a.createdAt ≤ b.createdAt) u.refreshTokens →
       generateRefreshToken hash now fresh u
         = some ({ u with refreshTokens := rest ++ [newToken fresh now] }, fresh) ∧
       (∀ e ∈ u.refreshTokens, e₀.createdAt ≤ e.createdAt) ∧
       (e₀.token ∉ rest.map RToken.token → e₀.token ≠ fresh →
         ∀ e ∈ rest ++ [newToken fresh now], e.token ≠ e₀.token)) := by
  constructor
  · intro ops
    induction ops with
    | nil => exact fun db h => h
    | cons op ops ih =>
      intro db h
      exact ih (stepOp hash sign db op) (capOK_stepOp hash sign db op h)
  · intro now fresh u e₀ rest hcons hlen hval hmod hsort
    refine ⟨genRT_evict hash now fresh hcons hlen hval hmod, ?_, ?_⟩
    · intro e he
      rw [hcons] at he hsort
      rcases List.mem_cons.mp he with rfl | hr
      · exact le_refl _
      · exact (List.pairwise_cons.mp hsort).1 e hr
    · intro hnot hne e he heq
      rcases List.mem_append.mp he with h1 | h2
      · exact hnot (List.mem_map.mpr ⟨e, h1, heq⟩)
      · rw [List.mem_singleton.mp h2] at heq
        exact hne ((by simpa [newToken] using heq.symm : e₀.token = fresh) ▸ rfl)

def demoFullTokens : List RToken :=
  [⟨"F1", 11, 1⟩, ⟨"F2", 12, 2⟩, ⟨"F3", 13, 3⟩, ⟨"F4", 14, 4⟩, ⟨"F5", 15, 5⟩]

def demoFull : User := { demoUser with refreshTokens := demoFullTokens }

theorem spec_c2_witness :
    capOK (runOps demoHash demoSign
      [AuthOp.opRegister "a@x.com" "pw" "Ana" "555" none "F1" 10 7,
       AuthOp.opRefresh (some "F1") "F2" 20] []) ∧
    generateRefreshToken demoHash 9 "F6" demoFull
      = some ({ demoFull with refreshTokens :=
          [⟨"F2", 12, 2⟩, ⟨"F3", 13, 3⟩, ⟨"F4", 14, 4⟩, ⟨"F5", 15, 5⟩]
            ++ [newToken "F6" 9] }, "F6") :=
  ⟨(spec_c2 demoHash demoSign).1 _ [] (fun u hu => absurd hu (List.not_mem_nil u)),
   ((spec_c2 demoHash demoSign).2 9 "F6" demoFull ⟨"F1", 11, 1⟩
      [⟨"F2", 12, 2⟩, ⟨"F3", 13, 3⟩, ⟨"F4", 14, 4⟩, ⟨"F5", 15, 5⟩]
      rfl rfl (by decide) rfl (by decide)).1⟩

end DeliveryAuth
